import Mathlib

set_option maxRecDepth 8000

/-!
Verification development for the Document-Parser repository.

Python strings are modelled as `List Char`, byte strings as `List Nat`
(each byte `< 256` where it matters).  External libraries (PIL, the
marker converter, the Florence vision model, libreoffice) are modelled
as abstract function parameters; everything authored by the repository
(dispatch, placeholder substitution, base64 packaging, temp-file
lifecycle, HTTP validation) is translated directly from the source.
-/

/-- Converts a Lean string literal into the character-list representation
used throughout this development. -/
def toL (s : String) : List Char := s.data

/-- Models Python `str.endswith(".pdf")` from `app.py` `parse_pdf`. -/
def endsWithPdf (s : List Char) : Bool := List.isSuffixOf (toL ".pdf") s

/-- Models the `endswith((".ppt", ".pptx", ".doc", ".docx"))` checks of
`parse_doc_ppt` and the `/parse/doc_ppt` endpoint. -/
def endsWithOffice (s : List Char) : Bool :=
  List.isSuffixOf (toL ".ppt") s || List.isSuffixOf (toL ".pptx") s ||
  List.isSuffixOf (toL ".doc") s || List.isSuffixOf (toL ".docx") s

/-- Models `content_type.startswith("image/")` from `api_server.py`. -/
def contentTypeIsImage (ct : List Char) : Bool := List.isPrefixOf (toL "image/") ct

/-! ## Base64 (Python `base64.b64encode` / `base64.b64decode`) -/

/-- Base64 standard alphabet, as used by Python `base64`. -/
def b64Chars : List Char := toL "ABCDEFGHIJKLMNOPQRSTUVWXYZabcdefghijklmnopqrstuvwxyz0123456789+/"

/-- Character for a 6-bit value. -/
def encChar (n : Nat) : Char := b64Chars.getD n 'A'

/-- Index of a character in a character list (used for base64 decoding). -/
def charIndexFrom : List Char → Char → Option Nat
  | [], _ => none
  | d :: rest, c => if d = c then some 0 else (charIndexFrom rest c).map (· + 1)

/-- Value of a base64 alphabet character, `none` for non-alphabet characters. -/
def charVal (c : Char) : Option Nat := charIndexFrom b64Chars c

/-- Models Python `base64.b64encode` on a byte string (3 bytes to 4 chars,
with `=` padding). -/
def b64Encode : List Nat → List Char
  | a :: b :: c :: rest =>
    encChar (a / 4) :: encChar (a % 4 * 16 + b / 16) ::
    encChar (b % 16 * 4 + c / 64) :: encChar (c % 64) :: b64Encode rest
  | [a, b] => [encChar (a / 4), encChar (a % 4 * 16 + b / 16), encChar (b % 16 * 4), '=']
  | [a] => [encChar (a / 4), encChar (a % 4 * 16), '=', '=']
  | [] => []

/-- Characters kept by Python `b64decode` (validate=False discards every
character outside the alphabet; `=` is kept as padding). -/
def keepB64 (c : Char) : Bool := b64Chars.contains c || c = '='

/-- Decodes 4-character groups; the length must be a multiple of 4 and
padding may only terminate the data (faithful to `b64decode` on canonical
encoder output). -/
def decodeGroups : List Char → Option (List Nat)
  | [] => some []
  | w :: x :: y :: z :: rest =>
    match charVal w, charVal x with
    | some vw, some vx =>
      if y = '=' ∧ z = '=' ∧ rest = [] then some [vw * 4 + vx / 16]
      else
        match charVal y with
        | some vy =>
          if z = '=' ∧ rest = [] then some [vw * 4 + vx / 16, vx % 16 * 16 + vy / 4]
          else
            match charVal z with
            | some vz =>
              (decodeGroups rest).map
                (fun tl => (vw * 4 + vx / 16) :: (vx % 16 * 16 + vy / 4) :: (vy % 4 * 64 + vz) :: tl)
            | none => none
        | none => none
    | _, _ => none
  | _ => none

/-- Models Python `base64.b64decode` (default `validate=False`). -/
def b64Decode (s : List Char) : Option (List Nat) := decodeGroups (s.filter keepB64)

theorem charVal_encChar : ∀ n, n < 64 → charVal (encChar n) = some n := by decide

theorem encChar_ne_pad : ∀ n, n < 64 → ¬ encChar n = '=' := by decide

theorem keepB64_encChar : ∀ n, n < 64 → keepB64 (encChar n) = true := by decide

theorem keepB64_pad : keepB64 '=' = true := by decide

/-- Round-trip of the embedded base64 codec on genuine byte strings. -/
theorem b64_roundtrip : ∀ bs : List Nat, (∀ b ∈ bs, b < 256) →
    b64Decode (b64Encode bs) = some bs := by
  have main : ∀ n (bs : List Nat), bs.length ≤ n → (∀ b ∈ bs, b < 256) →
      decodeGroups ((b64Encode bs).filter keepB64) = some bs := by
    intro n
    induction n with
    | zero =>
      intro bs hlen _
      cases bs with
      | nil => rfl
      | cons a tl => simp at hlen
    | succ n ih =>
      intro bs hlen hb
      rcases bs with _ | ⟨a, _ | ⟨b, _ | ⟨c, rest⟩⟩⟩
      · rfl
      · have ha : a < 256 := hb a (by simp)
        have h1 : a / 4 < 64 := by omega
        have h2 : a % 4 * 16 < 64 := by omega
        rw [show b64Encode [a] = [encChar (a / 4), encChar (a % 4 * 16), '=', '='] from rfl]
        simp only [List.filter, keepB64_encChar _ h1, keepB64_encChar _ h2, keepB64_pad]
        simp only [decodeGroups, charVal_encChar _ h1, charVal_encChar _ h2]
        simp only [and_self, if_true]
        have : a / 4 * 4 + a % 4 * 16 / 16 = a := by omega
        rw [this]
      · have ha : a < 256 := hb a (by simp)
        have hbb : b < 256 := hb b (by simp)
        have h1 : a / 4 < 64 := by omega
        have h2 : a % 4 * 16 + b / 16 < 64 := by omega
        have h3 : b % 16 * 4 < 64 := by omega
        rw [show b64Encode [a, b] =
          [encChar (a / 4), encChar (a % 4 * 16 + b / 16), encChar (b % 16 * 4), '='] from rfl]
        simp only [List.filter, keepB64_encChar _ h1, keepB64_encChar _ h2,
          keepB64_encChar _ h3, keepB64_pad]
        simp only [decodeGroups, charVal_encChar _ h1, charVal_encChar _ h2,
          charVal_encChar _ h3]
        rw [if_neg (by
          intro hcnd
          exact encChar_ne_pad _ h3 hcnd.1)]
        simp only [charVal_encChar _ h3, and_self, if_true]
        have e1 : a / 4 * 4 + (a % 4 * 16 + b / 16) / 16 = a := by omega
        have e2 : (a % 4 * 16 + b / 16) % 16 * 16 + b % 16 * 4 / 4 = b := by omega
        rw [e1, e2]
      · have ha : a < 256 := hb a (by simp)
        have hbb : b < 256 := hb b (by simp)
        have hc : c < 256 := hb c (by simp)
        have h1 : a / 4 < 64 := by omega
        have h2 : a % 4 * 16 + b / 16 < 64 := by omega
        have h3 : b % 16 * 4 + c / 64 < 64 := by omega
        have h4 : c % 64 < 64 := by omega
        have ihr := ih rest (by simp at hlen; omega)
          (fun x hx => hb x (by simp [hx]))
        rw [show b64Encode (a :: b :: c :: rest) =
          encChar (a / 4) :: encChar (a % 4 * 16 + b / 16) ::
          encChar (b % 16 * 4 + c / 64) :: encChar (c % 64) :: b64Encode rest from rfl]
        simp only [List.filter, keepB64_encChar _ h1, keepB64_encChar _ h2,
          keepB64_encChar _ h3, keepB64_encChar _ h4]
        simp only [decodeGroups, charVal_encChar _ h1, charVal_encChar _ h2,
          charVal_encChar _ h3, charVal_encChar _ h4]
        rw [if_neg (by
          intro hcnd
          exact encChar_ne_pad _ h3 hcnd.1)]
        rw [if_neg (by
          intro hcnd
          exact encChar_ne_pad _ h4 hcnd.1)]
        rw [ihr]
        simp only [Option.map_some']
        have e1 : a / 4 * 4 + (a % 4 * 16 + b / 16) / 16 = a := by omega
        have e2 : (a % 4 * 16 + b / 16) % 16 * 16 + (b % 16 * 4 + c / 64) / 4 = b := by omega
        have e3 : (b % 16 * 4 + c / 64) % 4 * 64 + c % 64 = c := by omega
        rw [e1, e2, e3]
  intro bs hb
  exact main bs.length bs le_rfl hb

/-- Python exceptions that the modelled code can raise (`re.error` and the
`IndexError` of an unknown group name in a replacement template are the
two raised by `re.sub`'s template parsing). -/
inductive PyErr where
  | typeError
  | unboundLocal
  | calledProcessError
  | keyError
  | binasciiError
  | pilError
  | valueError
  | reError
  | indexError
deriving DecidableEq, Repr

/-! ## Regex substitution (`re.sub` on the patterns built by `_image_to_text_conversion`)

The source builds the pattern `rf"!\[{filename}\]\({filename}\)"` with the
filename interpolated unescaped.  Patterns of this shape contain only
literal characters, backslash escapes and the `.` wildcard (as long as the
filename avoids the other regex operators), so the embedding compiles the
pattern string into a list of single-character matchers and performs
re.sub's leftmost non-overlapping global substitution.  The replacement
string is processed exactly as `re._parser.parse_template` does for a
pattern without capture groups: `\n`-style escapes become control
characters, `\\` a backslash, octal escapes become characters, `\g<0>`
(and `\0...` octal forms) refer to the whole match, any numeric group
reference above the pattern's zero groups is an `re.error`, an unknown
ASCII-letter escape is an `re.error`, an unknown named group is an
`IndexError`, and a backslash before any other character keeps both
characters. -/

/-- Single-character regex matchers occurring in the interpolated pattern:
a literal character or the `.` wildcard. -/
inductive RTok where
  | lit (c : Char)
  | any
deriving DecidableEq, Repr

/-- Compiles a pattern string of the fragment used by the source: `\c`
escapes a literal, `.` is the wildcard, everything else is a literal. -/
def compileRegex : List Char → List RTok
  | [] => []
  | c :: rest =>
    if c = '\\' then
      match rest with
      | [] => [RTok.lit '\\']
      | d :: rest2 => RTok.lit d :: compileRegex rest2
    else if c = '.' then RTok.any :: compileRegex rest
    else RTok.lit c :: compileRegex rest

/-- Matches a compiled pattern against a prefix of the text, returning the
remaining text on success. -/
def matchToks : List RTok → List Char → Option (List Char)
  | [], s => some s
  | RTok.lit c :: ps, d :: s => if c = d then matchToks ps s else none
  | RTok.any :: ps, _ :: s => matchToks ps s
  | _ :: _, [] => none

/-- Items of a parsed replacement template: a literal character, or a
reference to group 0 (the whole match) — the only group reference a
zero-capture-group pattern admits. -/
inductive ReplItem where
  | lit (c : Char)
  | group0
deriving DecidableEq, Repr

/-- ASCII decimal digit test. -/
def isDigitCh (c : Char) : Bool := 48 ≤ c.toNat ∧ c.toNat ≤ 57

/-- ASCII octal digit test. -/
def isOctDigit (c : Char) : Bool := 48 ≤ c.toNat ∧ c.toNat ≤ 55

/-- ASCII letter test (`ASCIILETTERS` of `re._parser`). -/
def isAsciiLetter (c : Char) : Bool :=
  (65 ≤ c.toNat ∧ c.toNat ≤ 90) ∨ (97 ≤ c.toNat ∧ c.toNat ≤ 122)

/-- Numeric value of an ASCII digit. -/
def digitVal (c : Char) : Nat := c.toNat - 48

/-- The `ESCAPES` table of `re._parser` used in replacement templates. -/
def escChar (d : Char) : Option Char :=
  if d = '\\' then some '\\'
  else if d = 'a' then some (Char.ofNat 7)
  else if d = 'b' then some (Char.ofNat 8)
  else if d = 'f' then some (Char.ofNat 12)
  else if d = 'n' then some (Char.ofNat 10)
  else if d = 'r' then some (Char.ofNat 13)
  else if d = 't' then some (Char.ofNat 9)
  else if d = 'v' then some (Char.ofNat 11)
  else none

/-- Identifier-start character (ASCII approximation of
`str.isidentifier`). -/
def isIdentStart (c : Char) : Bool := isAsciiLetter c || c = '_'

/-- Identifier-continuation character. -/
def isIdentCont (c : Char) : Bool := isIdentStart c || isDigitCh c

/-- Identifier test for group names in `\g<name>` references. -/
def isIdentifierName : List Char → Bool
  | [] => false
  | c :: rest => isIdentStart c && rest.all isIdentCont

/-- Scans a group name up to the closing `>`; `none` when the name is
unterminated. -/
def takeUntilGt : List Char → Option (List Char × List Char)
  | [] => none
  | c :: rest =>
    if c = '>' then some ([], rest)
    else (takeUntilGt rest).map (fun p => (c :: p.1, p.2))

/-- Models `re._parser.parse_template` for a pattern with zero capture
groups (the patterns `compileRegex` accepts have none: their parentheses
are escaped).  Faithful to CPython: `\g<num>` parses the number (`0`
refers to the whole match, anything larger is an invalid group reference),
`\g<name>` with an identifier name is an unknown group (`IndexError`),
otherwise a bad character in the group name (`re.error`); `\0` starts an
octal escape of up to two more octal digits; `\d`/`\dd` are group
references (invalid here), while three octal digits are an octal escape
(range-checked against 0o377); known letter escapes map through `ESCAPES`,
unknown ASCII-letter escapes raise `re.error`, and a backslash before any
other character keeps both characters.  The fuel argument only serves
structural termination: every step consumes at least one character, so the
template length is always sufficient fuel (see `parseTemplate`). -/
def parseTemplateFuel : Nat → List Char → Except PyErr (List ReplItem)
  | 0, [] => Except.ok []
  | 0, _ :: _ => Except.error PyErr.reError
  | _ + 1, [] => Except.ok []
  | fuel + 1, c :: rest =>
    if c = '\\' then
      match rest with
      | [] => Except.error PyErr.reError
      | d :: rest2 =>
        if d = 'g' then
          match rest2 with
          | '<' :: rest3 =>
            match takeUntilGt rest3 with
            | none => Except.error PyErr.reError
            | some (name, rest4) =>
              if name ≠ [] ∧ name.all isDigitCh then
                if name.foldl (fun a ch => a * 10 + digitVal ch) 0 = 0 then
                  (parseTemplateFuel fuel rest4).map (fun tl => ReplItem.group0 :: tl)
                else Except.error PyErr.reError
              else if isIdentifierName name then Except.error PyErr.indexError
              else Except.error PyErr.reError
          | _ => Except.error PyErr.reError
        else if d = '0' then
          match rest2 with
          | d1 :: rest3 =>
            if isOctDigit d1 then
              match rest3 with
              | d2 :: rest4 =>
                if isOctDigit d2 then
                  (parseTemplateFuel fuel rest4).map
                    (fun tl => ReplItem.lit (Char.ofNat (digitVal d1 * 8 + digitVal d2)) :: tl)
                else
                  (parseTemplateFuel fuel rest3).map
                    (fun tl => ReplItem.lit (Char.ofNat (digitVal d1)) :: tl)
              | [] => Except.ok [ReplItem.lit (Char.ofNat (digitVal d1))]
            else
              (parseTemplateFuel fuel rest2).map
                (fun tl => ReplItem.lit (Char.ofNat 0) :: tl)
          | [] => Except.ok [ReplItem.lit (Char.ofNat 0)]
        else if isDigitCh d then
          match rest2 with
          | d2 :: rest3 =>
            if isDigitCh d2 then
              if isOctDigit d ∧ isOctDigit d2 then
                match rest3 with
                | d3 :: rest4 =>
                  if isOctDigit d3 then
                    if digitVal d * 64 + digitVal d2 * 8 + digitVal d3 ≤ 255 then
                      (parseTemplateFuel fuel rest4).map (fun tl =>
                        ReplItem.lit
                          (Char.ofNat (digitVal d * 64 + digitVal d2 * 8 + digitVal d3)) :: tl)
                    else Except.error PyErr.reError
                  else Except.error PyErr.reError
                | [] => Except.error PyErr.reError
              else Except.error PyErr.reError
            else Except.error PyErr.reError
          | [] => Except.error PyErr.reError
        else
          match escChar d with
          | some e => (parseTemplateFuel fuel rest2).map (fun tl => ReplItem.lit e :: tl)
          | none =>
            if isAsciiLetter d then Except.error PyErr.reError
            else
              (parseTemplateFuel fuel rest2).map
                (fun tl => ReplItem.lit '\\' :: ReplItem.lit d :: tl)
    else (parseTemplateFuel fuel rest).map (fun tl => ReplItem.lit c :: tl)

/-- Models the replacement-template parsing `re.sub` performs once on the
replacement string before scanning. -/
def parseTemplate (repl : List Char) : Except PyErr (List ReplItem) :=
  parseTemplateFuel repl.length repl

/-- Expands a parsed template at one match: group 0 inserts the matched
text. -/
def expandTemplate (matched : List Char) : List ReplItem → List Char
  | [] => []
  | ReplItem.lit c :: rest => c :: expandTemplate matched rest
  | ReplItem.group0 :: rest => matched ++ expandTemplate matched rest

/-- Leftmost non-overlapping global substitution of a parsed replacement
template, with an explicit fuel argument (fuel is consumed one character
per scan position; the text length is always sufficient fuel, see
`reSub`). -/
def reSubFuel (pat : List RTok) (tmpl : List ReplItem) : Nat → List Char → List Char
  | 0, s => s
  | _ + 1, [] => []
  | fuel + 1, c :: s =>
    match matchToks pat (c :: s) with
    | some rest =>
      if rest.length ≤ s.length then
        expandTemplate (List.take ((c :: s).length - rest.length) (c :: s)) tmpl
          ++ reSubFuel pat tmpl fuel rest
      else c :: reSubFuel pat tmpl fuel s
    | none => c :: reSubFuel pat tmpl fuel s

/-- Models Python `re.sub(pat, repl, s)` for the compiled pattern fragment:
the replacement template is parsed first (its errors propagate before any
scanning), then every leftmost non-overlapping match is replaced by the
template expanded at that match. -/
def reSub (pat : List RTok) (repl : List Char) (s : List Char) : Except PyErr (List Char) :=
  match parseTemplate repl with
  | Except.error e => Except.error e
  | Except.ok tmpl => Except.ok (reSubFuel pat tmpl s.length s)

/-- Modelled from the spec: `plain string substitution` — literal
leftmost non-overlapping replacement of every occurrence of `pat`,
with the same fuel discipline as `reSubFuel`. -/
def litSubFuel (pat repl : List Char) : Nat → List Char → List Char
  | 0, s => s
  | _ + 1, [] => []
  | fuel + 1, c :: s =>
    if pat.isPrefixOf (c :: s) ∧ pat ≠ [] then
      repl ++ litSubFuel pat repl fuel (List.drop pat.length (c :: s))
    else c :: litSubFuel pat repl fuel s

/-- Modelled from the spec: literal (non-regex) global string replacement. -/
def litSub (pat repl : List Char) (s : List Char) : List Char :=
  litSubFuel pat repl s.length s

/-- Pattern string built by `_image_to_text_conversion`:
`!\[filename\]\(filename\)` with the filename inserted unescaped. -/
def patternOf (f : List Char) : List Char :=
  '!' :: '\\' :: '[' :: (f ++ ('\\' :: ']' :: '\\' :: '(' :: (f ++ ['\\', ')'])))

/-- Verbatim markdown image embed `![filename](filename)`. -/
def imagePat (f : List Char) : List Char :=
  '!' :: '[' :: (f ++ (']' :: '(' :: (f ++ [')'])))

/-- Characters with a special meaning in Python regular expressions. -/
def isRegexSpecial (c : Char) : Bool :=
  c = '.' || c = '\\' || c = '*' || c = '+' || c = '?' || c = '[' || c = ']' ||
  c = '(' || c = ')' || c = '\x7b' || c = '\x7d' || c = '|' || c = '^' || c = '$'

theorem compileRegex_cons_plain (c : Char) (rest : List Char)
    (h1 : c ≠ '\\') (h2 : c ≠ '.') :
    compileRegex (c :: rest) = RTok.lit c :: compileRegex rest := by
  rw [compileRegex.eq_def]
  simp [h1, h2]

theorem compileRegex_append_plain (f : List Char)
    (h : ∀ c ∈ f, isRegexSpecial c = false) :
    ∀ rest, compileRegex (f ++ rest) = f.map RTok.lit ++ compileRegex rest := by
  induction f with
  | nil => intro rest; rfl
  | cons c f ih =>
    intro rest
    have hc := h c (by simp)
    have h1 : c ≠ '\\' := by
      intro hq; subst hq; exact absurd hc (by decide)
    have h2 : c ≠ '.' := by
      intro hq; subst hq; exact absurd hc (by decide)
    rw [List.cons_append, compileRegex_cons_plain c _ h1 h2]
    rw [ih (fun x hx => h x (by simp [hx])) rest]
    rfl

theorem compileRegex_patternOf (f : List Char)
    (h : ∀ c ∈ f, isRegexSpecial c = false) :
    compileRegex (patternOf f) = (imagePat f).map RTok.lit := by
  have step1 : compileRegex (patternOf f) =
      RTok.lit '!' :: RTok.lit '[' ::
        compileRegex (f ++ ('\\' :: ']' :: '\\' :: '(' :: (f ++ ['\\', ')']))) := by
    simp [patternOf, compileRegex]
  rw [step1, compileRegex_append_plain f h]
  have step2 : compileRegex ('\\' :: ']' :: '\\' :: '(' :: (f ++ ['\\', ')'])) =
      RTok.lit ']' :: RTok.lit '(' :: compileRegex (f ++ ['\\', ')']) := by
    simp [compileRegex]
  rw [step2, compileRegex_append_plain f h]
  have step3 : compileRegex ['\\', ')'] = [RTok.lit ')'] := by
    simp [compileRegex]
  rw [step3]
  simp [imagePat]

theorem matchToks_map_lit (pat : List Char) : ∀ s : List Char,
    matchToks (pat.map RTok.lit) s =
      if pat.isPrefixOf s then some (s.drop pat.length) else none := by
  induction pat with
  | nil => intro s; simp [matchToks, List.isPrefixOf]
  | cons p ps ih =>
    intro s
    cases s with
    | nil => simp [matchToks, List.isPrefixOf]
    | cons d s =>
      simp only [List.map, matchToks, List.isPrefixOf]
      by_cases h : p = d
      · subst h
        simp [ih s, List.drop]
      · simp [h, beq_eq_false_iff_ne.mpr h]

theorem expandTemplate_map_lit (matched : List Char) : ∀ repl : List Char,
    expandTemplate matched (repl.map ReplItem.lit) = repl := by
  intro repl
  induction repl with
  | nil => rfl
  | cons c rest ih => simp [expandTemplate, ih]

theorem parseTemplateFuel_no_backslash : ∀ fuel (repl : List Char),
    repl.length ≤ fuel → '\\' ∉ repl →
    parseTemplateFuel fuel repl = Except.ok (repl.map ReplItem.lit) := by
  intro fuel
  induction fuel with
  | zero =>
    intro repl hlen _
    cases repl with
    | nil => rfl
    | cons c rest => simp at hlen
  | succ fuel ih =>
    intro repl hlen hnb
    cases repl with
    | nil => rfl
    | cons c rest =>
      have hc : ¬ c = '\\' := by
        intro hq; subst hq; exact hnb (List.mem_cons_self _ _)
      simp only [parseTemplateFuel]
      rw [if_neg hc]
      rw [ih rest (by simp at hlen; omega)
        (fun hx => hnb (List.mem_cons_of_mem _ hx))]
      rfl

theorem parseTemplate_no_backslash (repl : List Char) (h : '\\' ∉ repl) :
    parseTemplate repl = Except.ok (repl.map ReplItem.lit) :=
  parseTemplateFuel_no_backslash repl.length repl le_rfl h

theorem reSubFuel_map_lit (pat repl : List Char) :
    ∀ fuel s, reSubFuel (pat.map RTok.lit) (repl.map ReplItem.lit) fuel s
      = litSubFuel pat repl fuel s := by
  intro fuel
  induction fuel with
  | zero => intro s; rfl
  | succ fuel ih =>
    intro s
    cases s with
    | nil => rfl
    | cons c s =>
      simp only [reSubFuel, litSubFuel, matchToks_map_lit]
      by_cases hp : pat.isPrefixOf (c :: s)
      · by_cases hpe : pat = []
        · subst hpe
          have hlt : ¬ ((c :: s).length ≤ s.length) := by
            simp only [List.length_cons]; omega
          simp [hlt]
          exact ih s
        · have hlen : 0 < pat.length := List.length_pos.mpr hpe
          have hdrop : (List.drop pat.length (c :: s)).length ≤ s.length := by
            simp only [List.length_drop, List.length_cons]; omega
          simp [hp, hpe, hdrop, ih, expandTemplate_map_lit]
      · simp [hp, ih]

theorem reSub_map_lit (pat repl s : List Char) (hnb : '\\' ∉ repl) :
    reSub (pat.map RTok.lit) repl s = Except.ok (litSub pat repl s) := by
  unfold reSub litSub
  rw [parseTemplate_no_backslash repl hnb]
  exact congrArg Except.ok (reSubFuel_map_lit pat repl s.length s)

/-! ## Data model (`utils/response.py`) -/

deriving instance DecidableEq for Except

/-- Models `ImageResponse` of `utils/response.py`. -/
structure ImageResponse where
  image : List Char := []
  image_name : List Char := []
  image_info : List (List Char × List Char) := []
deriving DecidableEq, Repr

/-- Models `DocumentResponse` of `utils/response.py`.  Metadata values are
modelled by their string forms. -/
structure DocumentResponse where
  text : List Char := []
  images : List ImageResponse := []
  metadata : List (List Char × List Char) := []
  chunks : List (List Char) := []
deriving DecidableEq, Repr

/-- Argument of `DocumentResponse.add_image`: a base64 string or an
already-decoded PIL image (the abstract type `Img`). -/
inductive AddImageData (Img : Type) where
  | b64str (s : List Char)
  | pilimg (i : Img)

/-- Models `encode_image_to_base64` of `utils/process.py`: the JPEG
encoder of PIL is the abstract parameter `jpeg`. -/
def encode_image_to_base64 {Img : Type} (jpeg : Img → List Nat) (img : Img) : List Char :=
  b64Encode (jpeg img)

/-- Models `DocumentResponse.add_image`.  `pilOpen` abstracts
`PIL.Image.open` on a byte string (`none` when PIL rejects the bytes). -/
def add_image {Img : Type} (jpeg : Img → List Nat) (pilOpen : List Nat → Option Img)
    (resp : DocumentResponse) (image_name : List Char) (image_data : AddImageData Img)
    (image_info : List (List Char × List Char)) : Except PyErr DocumentResponse :=
  match (match image_data with
    | AddImageData.b64str s =>
      match b64Decode s with
      | none => Except.error PyErr.binasciiError
      | some bs =>
        match pilOpen bs with
        | none => Except.error PyErr.pilError
        | some i => Except.ok i
    | AddImageData.pilimg i => Except.ok i) with
  | Except.error e => Except.error e
  | Except.ok pil =>
    Except.ok { resp with
      images := resp.images ++
        [{ image := encode_image_to_base64 jpeg pil,
           image_name := image_name, image_info := image_info }] }

/-! ## Florence model loading (`utils/florence.py`) -/

/-- Where `FlorenceVisionModel.__init__` takes the model weights from. -/
inductive FlorenceSource where
  | fromLocal (p : List Char)
  | fromHub
deriving DecidableEq, Repr

/-- Models the load-time dispatch of `FlorenceVisionModel.__init__`:
`model_path = os.environ.get("FLORENCE_PATH")` followed by
`if not os.path.exists(model_path)`.  When the variable is absent,
`os.environ.get` yields `None` and `os.path.exists(None)` raises a
`TypeError` (only `OSError` and `ValueError` are swallowed by
`os.path.exists`). -/
def florence_model_source (florencePathVar : Option (List Char))
    (pathExists : List Char → Bool) : Except PyErr FlorenceSource :=
  match florencePathVar with
  | none => Except.error PyErr.typeError
  | some p =>
    if pathExists p then Except.ok (FlorenceSource.fromLocal p)
    else Except.ok FlorenceSource.fromHub

/-! ## The orchestrator (`app.py`) -/

/-- Default task prompt used throughout the source. -/
def defaultTaskPrompt : List Char := toL "<MORE_DETAILED_CAPTION>"

/-- Metadata key used by `parse_img`. -/
def imageNameKey : List Char := toL "image_name"

/-- Argument of `parse_img`: raw bytes, a base64 string, a PIL image, or
anything else (the `else: raise ValueError` branch). -/
inductive ImgInput (Img : Type) where
  | bytes (b : List Nat)
  | b64 (s : List Char)
  | pil (i : Img)
  | other

/-- Models the input dispatch at the top of `parse_img`. -/
def decode_image_input {Img : Type} (pilOpen : List Nat → Option Img) :
    ImgInput Img → Except PyErr Img
  | ImgInput.bytes b =>
    match pilOpen b with
    | some i => Except.ok i
    | none => Except.error PyErr.pilError
  | ImgInput.b64 s =>
    match b64Decode s with
    | none => Except.error PyErr.binasciiError
    | some bs =>
      match pilOpen bs with
      | some i => Except.ok i
      | none => Except.error PyErr.pilError
  | ImgInput.pil i => Except.ok i
  | ImgInput.other => Except.error PyErr.valueError

/-- Models `PhiloDocumentParser.parse_img`.  The Florence model is the
abstract parameter `florence`, returning the post-processed prompt-keyed
dictionary as an association list whose values are already in string form
(`str(response[task_prompt])`); `response[task_prompt]` on a missing key
raises `KeyError`. -/
def parse_img {Img : Type} (florence : Img → List Char → List (List Char × List Char))
    (pilOpen : List Nat → Option Img) (image_data : ImgInput Img)
    (image_name : Option (List Char)) (task_prompt : List Char) :
    Except PyErr DocumentResponse :=
  match decode_image_input pilOpen image_data with
  | Except.error e => Except.error e
  | Except.ok pil =>
    match List.lookup task_prompt (florence pil task_prompt) with
    | none => Except.error PyErr.keyError
    | some v =>
      match image_name with
      | some n =>
        if n = [] then Except.ok { text := v }
        else Except.ok { text := v, metadata := [(imageNameKey, n)] }
      | none => Except.ok { text := v }

/-- Models `_image_to_text_conversion`: for each (filename, image) pair
the caption text of `parse_img` replaces, by `re.sub` with the unescaped
filename interpolated into the pattern, the image embed in the document;
errors of `parse_img` and of `re.sub` (replacement-template errors)
propagate. -/
def image_to_text_conversion {Img : Type}
    (florence : Img → List Char → List (List Char × List Char))
    (pilOpen : List Nat → Option Img) :
    List (List Char × Img) → List Char → Except PyErr (List Char)
  | [], document => Except.ok document
  | (filename, image) :: rest, document =>
    match parse_img florence pilOpen (ImgInput.pil image) (some filename) defaultTaskPrompt with
    | Except.error e => Except.error e
    | Except.ok r =>
      match reSub (compileRegex (patternOf filename)) r.text document with
      | Except.error e => Except.error e
      | Except.ok newDoc => image_to_text_conversion florence pilOpen rest newDoc

/-- File-system effects performed by the orchestrator. -/
inductive FsEvent where
  | created (name : List Char)
  | removed (name : List Char)
  | converterRun (path : List Char)
deriving DecidableEq, Repr

/-- Abstract environment of a parsing run: the name picked by
`NamedTemporaryFile`, the marker converter (path to markdown text plus the
ordered name-to-image mapping), the Florence model, PIL open, the PIL JPEG
and PNG encoders and the output path of the libreoffice conversion. -/
structure PdfEnv (Img : Type) where
  tempName : List Char
  convert : List Char → List Char × List (List Char × Img)
  florence : Img → List Char → List (List Char × List Char)
  pilOpen : List Nat → Option Img
  jpegEncode : Img → List Nat
  pngEncode : Img → List Nat
  officeOut : List Char → List Char

/-- Models `_encode_image`: the loop body saves the image as PNG under its
filename, reads it back, base64-encodes it, calls `add_image` and removes
the file — and then executes `return None` inside the loop, so only the
first mapping entry is ever processed. -/
def encode_image {Img : Type} (jpeg png : Img → List Nat)
    (pilOpen : List Nat → Option Img) (images : List (List Char × Img))
    (resp : DocumentResponse) : Except PyErr DocumentResponse × List FsEvent :=
  match images with
  | [] => (Except.ok resp, [])
  | (filename, image) :: _rest =>
    match add_image jpeg pilOpen resp filename (AddImageData.b64str (b64Encode (png image))) [] with
    | Except.ok r => (Except.ok r, [FsEvent.created filename, FsEvent.removed filename])
    | Except.error e => (Except.error e, [FsEvent.created filename])

/-- Shared tail of `parse_pdf` and `parse_doc_ppt`: run the converter,
refine the text via `_image_to_text_conversion`, build the response and
attach images via `_encode_image`. -/
def pdf_pipeline {Img : Type} (env : PdfEnv Img) (path : List Char) :
    Except PyErr DocumentResponse × List FsEvent :=
  let conv := env.convert path
  match image_to_text_conversion env.florence env.pilOpen conv.2 conv.1 with
  | Except.error e => (Except.error e, [FsEvent.converterRun path])
  | Except.ok refined =>
    let er := encode_image env.jpegEncode env.pngEncode env.pilOpen conv.2 { text := refined }
    (er.1, FsEvent.converterRun path :: er.2)

/-- Input accepted by `parse_pdf` / `parse_doc_ppt`: a path string, raw
bytes, or anything else. -/
inductive InputData where
  | str (s : List Char)
  | bytes (b : List Nat)
  | other

/-- Models `PhiloDocumentParser.parse_pdf`, also recording its file-system
events.  A string not ending in `.pdf` (and any non-string non-bytes
input) falls through both dispatch branches, leaving `input_path`
unassigned, so evaluating `self.converter(input_path)` raises
`UnboundLocalError` before the converter runs. -/
def parse_pdf {Img : Type} (env : PdfEnv Img) (input : InputData) :
    Except PyErr DocumentResponse × List FsEvent :=
  match input with
  | InputData.str s =>
    if endsWithPdf s then pdf_pipeline env s
    else (Except.error PyErr.unboundLocal, [])
  | InputData.bytes _ =>
    let pr := pdf_pipeline env env.tempName
    match pr.1 with
    | Except.ok x =>
      (Except.ok x, (FsEvent.created env.tempName :: pr.2) ++ [FsEvent.removed env.tempName])
    | Except.error e => (Except.error e, FsEvent.created env.tempName :: pr.2)
  | InputData.other => (Except.error PyErr.unboundLocal, [])

/-- Models the libreoffice conversion step of `parse_doc_ppt`:
`subprocess.run(command, check=True)` raises `CalledProcessError` on a
non-zero exit status; on success the new input path is the converted PDF
in the fresh output directory. -/
def office_stage {Img : Type} (env : PdfEnv Img) (libreExit : Nat)
    (inputPath : List Char) : Except PyErr (List Char) :=
  if endsWithOffice inputPath then
    if libreExit = 0 then Except.ok (env.officeOut inputPath)
    else Except.error PyErr.calledProcessError
  else Except.ok inputPath

/-- Models `PhiloDocumentParser.parse_doc_ppt` with its file-system events.
For bytes input the `NamedTemporaryFile()` name carries no suffix, so the
office-extension test on it fails and the conversion is skipped; the final
`if input_data != input_path: os.remove(input_path)` always fires for
bytes input (a bytes object never equals a string). -/
def parse_doc_ppt {Img : Type} (env : PdfEnv Img) (libreExit : Nat)
    (input : InputData) : Except PyErr DocumentResponse × List FsEvent :=
  match input with
  | InputData.str s =>
    if endsWithOffice s then
      match office_stage env libreExit s with
      | Except.error e => (Except.error e, [])
      | Except.ok path2 =>
        let pr := pdf_pipeline env path2
        match pr.1 with
        | Except.ok x =>
          (Except.ok x, pr.2 ++ (if s = path2 then [] else [FsEvent.removed path2]))
        | Except.error e => (Except.error e, pr.2)
    else (Except.error PyErr.unboundLocal, [])
  | InputData.bytes _ =>
    match office_stage env libreExit env.tempName with
    | Except.error e => (Except.error e, [FsEvent.created env.tempName])
    | Except.ok path2 =>
      let pr := pdf_pipeline env path2
      match pr.1 with
      | Except.ok x =>
        (Except.ok x, (FsEvent.created env.tempName :: pr.2) ++ [FsEvent.removed path2])
      | Except.error e => (Except.error e, FsEvent.created env.tempName :: pr.2)
  | InputData.other => (Except.error PyErr.unboundLocal, [])

/-! ## HTTP layer (`api_server.py`) -/

/-- Outcome of an endpoint handler before serialization: an
`HTTPException(400, detail)` or delegation to the orchestrator. -/
inductive EndpointResult (α : Type) where
  | badRequest (detail : List Char)
  | ok (a : α)
deriving DecidableEq

/-- Detail string of the PDF endpoint's 400 response. -/
def onlyPdfMsg : List Char := toL "Only PDF files are accepted."

/-- Detail string of the image endpoint's 400 response. -/
def onlyImageMsg : List Char := toL "Only image files are accepted."

/-- Models the `POST /parse/pdf` handler: reject unless the uploaded
filename ends in `.pdf`, otherwise pass the body bytes to `parse_pdf`. -/
def parse_pdf_endpoint {Img : Type} (env : PdfEnv Img) (filename : List Char)
    (body : List Nat) : EndpointResult (Except PyErr DocumentResponse × List FsEvent) :=
  if endsWithPdf filename then EndpointResult.ok (parse_pdf env (InputData.bytes body))
  else EndpointResult.badRequest onlyPdfMsg

/-- Models the `POST /parse/image` handler: reject unless the upload's
content type starts with `image/`, otherwise call `parse_img` on the body
bytes with the uploaded filename and the (defaulted) task prompt. -/
def parse_image_endpoint {Img : Type}
    (florence : Img → List Char → List (List Char × List Char))
    (pilOpen : List Nat → Option Img) (contentType filename : List Char)
    (taskPrompt : Option (List Char)) (body : List Nat) :
    EndpointResult (Except PyErr DocumentResponse) :=
  if contentTypeIsImage contentType then
    EndpointResult.ok (parse_img florence pilOpen (ImgInput.bytes body) (some filename)
      (taskPrompt.getD defaultTaskPrompt))
  else EndpointResult.badRequest onlyImageMsg

/-! ## Concrete instantiations used by witnesses and counterexamples -/

/-- Concrete Florence model: every prompt maps to the caption `cap`. -/
def florenceW : Nat → List Char → List (List Char × List Char) := fun _ p => [(p, toL "cap")]

/-- Concrete PIL open: every byte string decodes to the image `7`. -/
def pilOpenW : List Nat → Option Nat := fun _ => some 7

/-- Concrete environment: the converter yields one image `img1.png`. -/
def envW : PdfEnv Nat where
  tempName := toL "tmp1.pdf"
  convert := fun _ => (toL "see ![img1.png](img1.png) here", [(toL "img1.png", 1)])
  florence := fun _ p => [(p, toL "cap")]
  pilOpen := fun _ => some 1
  jpegEncode := fun n => [n % 256]
  pngEncode := fun n => [n % 256]
  officeOut := fun s => s ++ toL ".conv.pdf"

/-! ## Claim C3 -/

/-- Claim C3, counterexample: with the environment variable absent the
load-time dispatch raises a `TypeError` instead of selecting the hub
download. -/
theorem florence_absent_env_cex :
    florence_model_source none (fun _ => false) = Except.error PyErr.typeError
    ∧ florence_model_source none (fun _ => false) ≠ Except.ok FlorenceSource.fromHub := by
  constructor
  · rfl
  · decide

/-- Claim C3 (amended): if `FLORENCE_PATH` is set to an existing path the
model is loaded from it, if it is set to a nonexistent path the public
model is downloaded, and if it is absent the constructor raises a
`TypeError` (from `os.path.exists(None)`) instead of downloading. -/
theorem florence_model_source_amended (pathExists : List Char → Bool) (p : List Char) :
    florence_model_source (some p) pathExists
      = Except.ok (if pathExists p then FlorenceSource.fromLocal p else FlorenceSource.fromHub)
    ∧ florence_model_source none pathExists = Except.error PyErr.typeError := by
  constructor
  · by_cases h : pathExists p <;> simp [florence_model_source, h]
  · rfl

/-! ## Claim C4 -/

/-- Claim C4: for an office-format input path, a non-zero exit status of
the headless libreoffice conversion makes `parse_doc_ppt` raise
(`CalledProcessError` propagates, no silent empty response is returned). -/
theorem parse_doc_ppt_conversion_failure {Img : Type} (env : PdfEnv Img) (exitCode : Nat)
    (s : List Char) (hext : endsWithOffice s = true) (hexit : exitCode ≠ 0) :
    parse_doc_ppt env exitCode (InputData.str s)
      = (Except.error PyErr.calledProcessError, []) := by
  simp [parse_doc_ppt, hext, office_stage, hexit]

/-- Claim C4, witness at a concrete input. -/
theorem parse_doc_ppt_conversion_failure_witness :
    parse_doc_ppt envW 1 (InputData.str (toL "a.doc"))
      = (Except.error PyErr.calledProcessError, []) :=
  parse_doc_ppt_conversion_failure envW 1 (toL "a.doc") (by decide) (by decide)

/-! ## Claim C7 -/

/-- Claim C7: the `/parse/pdf` handler answers 400 exactly when the
uploaded filename does not end in `.pdf`, independently of the body, and
otherwise hands the body bytes to the orchestrator's PDF path. -/
theorem parse_pdf_endpoint_behavior {Img : Type} (env : PdfEnv Img) (filename : List Char)
    (body : List Nat) :
    (parse_pdf_endpoint env filename body = EndpointResult.badRequest onlyPdfMsg
        ↔ endsWithPdf filename = false)
    ∧ (parse_pdf_endpoint env filename body
        = EndpointResult.ok (parse_pdf env (InputData.bytes body))
        ↔ endsWithPdf filename = true) := by
  by_cases h : endsWithPdf filename <;> simp [parse_pdf_endpoint, h]

/-! ## Claim C8 -/

/-- Claim C8: the `/parse/image` handler answers 400 exactly when the
upload's content type does not start with `image/`, independently of the
body; an omitted `task_prompt` defaults to `<MORE_DETAILED_CAPTION>`. -/
theorem parse_image_endpoint_behavior {Img : Type}
    (florence : Img → List Char → List (List Char × List Char))
    (pilOpen : List Nat → Option Img) (ct fn : List Char)
    (tp : Option (List Char)) (body : List Nat) :
    (parse_image_endpoint florence pilOpen ct fn tp body
        = EndpointResult.badRequest onlyImageMsg
        ↔ contentTypeIsImage ct = false)
    ∧ parse_image_endpoint florence pilOpen ct fn none body
        = (if contentTypeIsImage ct
           then EndpointResult.ok
             (parse_img florence pilOpen (ImgInput.bytes body) (some fn) defaultTaskPrompt)
           else EndpointResult.badRequest onlyImageMsg) := by
  by_cases h : contentTypeIsImage ct <;> simp [parse_image_endpoint, h]

/-! ## Claim C9 -/

/-- Claim C9: for any image input accepted by the dispatch and any prompt
whose caption entry exists, `parse_img` returns a response with empty
image and chunk lists, the caption string as text, and metadata exactly
`image_name ↦ name` for a non-empty supplied name and empty otherwise. -/
theorem parse_img_shape {Img : Type}
    (florence : Img → List Char → List (List Char × List Char))
    (pilOpen : List Nat → Option Img) (data : ImgInput Img) (img : Img)
    (name : Option (List Char)) (prompt v : List Char)
    (hdec : decode_image_input pilOpen data = Except.ok img)
    (hv : List.lookup prompt (florence img prompt) = some v) :
    parse_img florence pilOpen data name prompt =
      Except.ok { text := v, images := [], chunks := [],
                  metadata := (match name with
                    | some n => if n = [] then [] else [(imageNameKey, n)]
                    | none => []) } := by
  simp only [parse_img, hdec, hv]
  cases name with
  | none => rfl
  | some n =>
    by_cases hn : n = []
    · simp [hn]
    · simp [hn]

/-- Claim C9, witness at a concrete base64-string input. -/
theorem parse_img_shape_witness :
    parse_img florenceW pilOpenW (ImgInput.b64 (b64Encode [1])) (some (toL "pic.png"))
        defaultTaskPrompt
      = Except.ok { text := toL "cap", metadata := [(imageNameKey, toL "pic.png")] } :=
  parse_img_shape florenceW pilOpenW (ImgInput.b64 (b64Encode [1])) 7
    (some (toL "pic.png")) defaultTaskPrompt (toL "cap") (by decide) (by decide)

/-! ## Claim C10 -/

/-- Claim C10: an input that is neither a `.pdf`-suffixed string nor bytes
makes `parse_pdf` fail with `UnboundLocalError` before the converter is
ever run (no converter event is recorded). -/
theorem parse_pdf_unbound_local {Img : Type} (env : PdfEnv Img) (s : List Char)
    (h : endsWithPdf s = false) :
    parse_pdf env (InputData.str s) = (Except.error PyErr.unboundLocal, [])
    ∧ (∀ p, FsEvent.converterRun p ∉ (parse_pdf env (InputData.str s)).2)
    ∧ parse_pdf env InputData.other = (Except.error PyErr.unboundLocal, []) := by
  have h1 : parse_pdf env (InputData.str s) = (Except.error PyErr.unboundLocal, []) := by
    simp [parse_pdf, h]
  refine ⟨h1, ?_, rfl⟩
  intro p
  rw [h1]
  simp

/-- Claim C10, witness at a concrete non-`.pdf` path string. -/
theorem parse_pdf_unbound_local_witness :
    parse_pdf envW (InputData.str (toL "a.txt")) = (Except.error PyErr.unboundLocal, []) :=
  (parse_pdf_unbound_local envW (toL "a.txt") (by decide)).1

/-! ## Claim C6 -/

/-- Claim C6: adding a PIL image to the envelope stores exactly the
base64 encoding of the codec (JPEG) bytes of that image, and base64
decoding the stored field recovers those codec bytes, so decoding them
with the codec reconstructs the added image modulo the lossy JPEG
re-encoding. -/
theorem add_image_roundtrip {Img : Type} (jpeg : Img → List Nat)
    (pilOpen : List Nat → Option Img) (resp : DocumentResponse) (name : List Char)
    (img : Img) (info : List (List Char × List Char))
    (h : ∀ b ∈ jpeg img, b < 256) :
    add_image jpeg pilOpen resp name (AddImageData.pilimg img) info
      = Except.ok { resp with images := resp.images ++
          [{ image := b64Encode (jpeg img), image_name := name, image_info := info }] }
    ∧ b64Decode (b64Encode (jpeg img)) = some (jpeg img) :=
  ⟨rfl, b64_roundtrip _ h⟩

/-- Concrete JPEG encoder used by the C6 witness. -/
def jpegW : Nat → List Nat := fun n => [n % 256, 2]

/-- Claim C6, witness at a concrete image. -/
theorem add_image_roundtrip_witness :
    add_image jpegW pilOpenW {} (toL "a.png") (AddImageData.pilimg 1) []
      = Except.ok { images := [{ image := b64Encode [1, 2], image_name := toL "a.png",
                                 image_info := [] }] }
    ∧ b64Decode (b64Encode [1, 2]) = some [1, 2] :=
  add_image_roundtrip jpegW pilOpenW {} (toL "a.png") 1 [] (by decide)

/-! ## Claim C5 -/

theorem encode_image_events {Img : Type} (jpeg png : Img → List Nat)
    (pilOpen : List Nat → Option Img) (images : List (List Char × Img))
    (resp : DocumentResponse) :
    (encode_image jpeg png pilOpen images resp).2 = []
    ∨ ∃ fn, (encode_image jpeg png pilOpen images resp).2
          = [FsEvent.created fn, FsEvent.removed fn]
        ∨ (encode_image jpeg png pilOpen images resp).2 = [FsEvent.created fn] := by
  cases images with
  | nil => left; rfl
  | cons hd tl =>
    obtain ⟨fn, im⟩ := hd
    right
    refine ⟨fn, ?_⟩
    cases ha : add_image jpeg pilOpen resp fn (AddImageData.b64str (b64Encode (png im))) [] with
    | ok r => left; simp [encode_image, ha]
    | error e => right; simp [encode_image, ha]

theorem pdf_pipeline_events {Img : Type} (env : PdfEnv Img) (path : List Char) :
    (pdf_pipeline env path).2 = [FsEvent.converterRun path]
    ∨ ∃ fn, (pdf_pipeline env path).2
          = [FsEvent.converterRun path, FsEvent.created fn, FsEvent.removed fn]
        ∨ (pdf_pipeline env path).2 = [FsEvent.converterRun path, FsEvent.created fn] := by
  simp only [pdf_pipeline]
  cases himg : image_to_text_conversion env.florence env.pilOpen
      (env.convert path).2 (env.convert path).1 with
  | error e => left; simp [himg]
  | ok refined =>
    rcases encode_image_events env.jpegEncode env.pngEncode env.pilOpen
        (env.convert path).2 { text := refined } with h0 | ⟨fn, h1 | h1⟩
    · left; simp [himg, h0]
    · right; exact ⟨fn, Or.inl (by simp [himg, h1])⟩
    · right; exact ⟨fn, Or.inr (by simp [himg, h1])⟩

/-- Claim C5 (amended): on every successful `parse_pdf` call each removed
file is one the call itself created (per-image scratch files and, for
bytes input, the temporary PDF); for bytes input the temporary PDF is
removed last, immediately before returning.  The original claim's "no
file is removed" for path input fails: see `parse_pdf_path_removal_cex`. -/
theorem parse_pdf_cleanup {Img : Type} (env : PdfEnv Img) (input : InputData)
    (r : DocumentResponse) (ev : List FsEvent)
    (h : parse_pdf env input = (Except.ok r, ev)) :
    (∀ n, FsEvent.removed n ∈ ev → FsEvent.created n ∈ ev)
    ∧ (∀ b, input = InputData.bytes b →
        ev.getLast? = some (FsEvent.removed env.tempName)
        ∧ FsEvent.created env.tempName ∈ ev) := by
  cases input with
  | other =>
    simp only [parse_pdf] at h
    simp at h
  | str s =>
    simp only [parse_pdf] at h
    by_cases hs : endsWithPdf s
    · rw [if_pos hs] at h
      have hev : (pdf_pipeline env s).2 = ev := by rw [h]
      constructor
      · intro n hn
        rcases pdf_pipeline_events env s with h0 | ⟨fn, h1 | h1⟩
        · rw [← hev, h0] at hn
          simp at hn
        · rw [← hev, h1] at hn ⊢
          simp at hn
          simp [hn]
        · rw [← hev, h1] at hn
          simp at hn
      · intro b hb
        simp at hb
    · rw [if_neg hs] at h
      simp at h
  | bytes b0 =>
    simp only [parse_pdf] at h
    cases hp1 : (pdf_pipeline env env.tempName).1 with
    | error e =>
      rw [hp1] at h
      simp at h
    | ok x =>
      rw [hp1] at h
      simp only [List.cons_append] at h
      have hev : FsEvent.created env.tempName ::
          ((pdf_pipeline env env.tempName).2 ++ [FsEvent.removed env.tempName]) = ev := by
        have h2 := congrArg Prod.snd h
        simpa using h2
      constructor
      · intro n hn
        rcases pdf_pipeline_events env env.tempName with h0 | ⟨fn, h1 | h1⟩
        · rw [← hev, h0] at hn ⊢
          simp at hn
          simp [hn]
        · rw [← hev, h1] at hn ⊢
          simp at hn
          rcases hn with h | h <;> simp [h]
        · rw [← hev, h1] at hn ⊢
          simp at hn
          simp [hn]
      · intro b hb
        refine ⟨?_, ?_⟩
        · rw [← hev, ← List.cons_append, List.getLast?_append_cons]
          rfl
        · rw [← hev]
          simp

/-- Claim C5, counterexample: a successful path-input `parse_pdf` call
still performs a file removal — `_encode_image` saves the extracted image
under its filename and removes that scratch file again. -/
theorem parse_pdf_path_removal_cex :
    (match (parse_pdf envW (InputData.str (toL "a.pdf"))).1 with
     | Except.ok _ => true
     | Except.error _ => false) = true
    ∧ (parse_pdf envW (InputData.str (toL "a.pdf"))).2
      = [FsEvent.converterRun (toL "a.pdf"), FsEvent.created (toL "img1.png"),
         FsEvent.removed (toL "img1.png")] := by
  decide

/-- Claim C5, witness: a successful bytes-input call removes the temporary
PDF last, having created it itself. -/
theorem parse_pdf_cleanup_witness :
    (parse_pdf envW (InputData.bytes [1])).2.getLast?
      = some (FsEvent.removed (toL "tmp1.pdf"))
    ∧ FsEvent.created (toL "tmp1.pdf") ∈ (parse_pdf envW (InputData.bytes [1])).2 :=
  (parse_pdf_cleanup envW (InputData.bytes [1]) _ _ rfl).2 [1] rfl

/-! ## Claim C1 -/

/-- Concrete environment whose converter yields a two-image mapping. -/
def envC1 : PdfEnv Nat where
  tempName := toL "t.pdf"
  convert := fun _ => (toL "a ![im1.png](im1.png) b ![im2.png](im2.png) c",
    [(toL "im1.png", 1), (toL "im2.png", 2)])
  florence := fun _ p => [(p, toL "CAP")]
  pilOpen := fun _ => some 1
  jpegEncode := fun n => [n % 256]
  pngEncode := fun n => [n % 256]
  officeOut := fun s => s

/-- Claim C1: the converter's output mapping holds two images, yet the
response returned by `parse_pdf` holds a single `ImageResponse` — the
`return None` sitting inside the `_encode_image` loop stops the iteration
after the first entry, contradicting the claimed one-image-response-per-
mapping-entry invariant (and `_encode_image`'s own plural docstring). -/
theorem parse_pdf_first_image_only :
    (parse_pdf envC1 (InputData.str (toL "d.pdf"))).1.map (fun r => r.images.length)
      = Except.ok 1
    ∧ (envC1.convert (toL "d.pdf")).2.length = 2 := by
  decide

/-! ## Claim C2 -/

/-- Claim C2 (amended): the placeholder substitution of
`_image_to_text_conversion` coincides with literal global string
replacement of the verbatim embed `![filename](filename)` whenever the
filename contains no regex metacharacter and the caption contains no
backslash.  Because the filename is interpolated into the pattern
unescaped, metacharacters in it (such as the `.` of every real extension)
also make non-verbatim text match and be replaced (see
`image_sub_regex_cex`); and because the caption is used as an `re.sub`
replacement template, backslashes in it are interpreted as template
escapes rather than inserted verbatim (see `reSub_group0_demo`,
`reSub_newline_escape_demo` and `reSub_bad_escape_demo`). -/
theorem image_sub_literal_when_plain {Img : Type}
    (florence : Img → List Char → List (List Char × List Char))
    (pilOpen : List Nat → Option Img) (f : List Char) (img : Img) (doc cap : List Char)
    (hmeta : ∀ c ∈ f, isRegexSpecial c = false)
    (hcap : List.lookup defaultTaskPrompt (florence img defaultTaskPrompt) = some cap)
    (hnb : '\\' ∉ cap) :
    image_to_text_conversion florence pilOpen [(f, img)] doc
      = Except.ok (litSub (imagePat f) cap doc) := by
  have hsub : reSub (compileRegex (patternOf f)) cap doc
      = Except.ok (litSub (imagePat f) cap doc) := by
    rw [compileRegex_patternOf f hmeta, reSub_map_lit (imagePat f) cap doc hnb]
  simp only [image_to_text_conversion, parse_img, decode_image_input, hcap]
  by_cases hf : f = []
  · subst hf
    simp [image_to_text_conversion, hsub]
  · simp [hf, image_to_text_conversion, hsub]

/-- Concrete Florence model used by the C2 counterexample and witness. -/
def florenceC2 : Nat → List Char → List (List Char × List Char) :=
  fun _ p => [(p, toL "CAPTION")]

/-- Concrete PIL open that rejects everything (never reached on the
PIL-image path). -/
def pilOpenN : List Nat → Option Nat := fun _ => none

/-- Claim C2, witness: for the metacharacter-free filename `apng` the
substitution is literal replacement. -/
theorem image_sub_literal_when_plain_witness :
    image_to_text_conversion florenceC2 pilOpenN [(toL "apng", 1)]
        (toL "x ![apng](apng) y ![apng](apng) z")
      = Except.ok (litSub (imagePat (toL "apng")) (toL "CAPTION")
          (toL "x ![apng](apng) y ![apng](apng) z")) :=
  image_sub_literal_when_plain florenceC2 pilOpenN (toL "apng") 1
    (toL "x ![apng](apng) y ![apng](apng) z") (toL "CAPTION")
    (by decide) (by decide) (by decide)

/-- Fidelity of the replacement-template model: `\g<0>` in the replacement
re-inserts the whole matched text. -/
theorem reSub_group0_demo :
    reSub (compileRegex (patternOf (toL "apng"))) (toL "=\\g<0>=") (toL "![apng](apng)")
      = Except.ok (toL "=![apng](apng)=") := by
  decide

/-- Fidelity of the replacement-template model: `\n` in the replacement
becomes a newline character, not a backslash and an `n`. -/
theorem reSub_newline_escape_demo :
    reSub (compileRegex (patternOf (toL "apng"))) (toL "a\\nb") (toL "![apng](apng)")
      = Except.ok (toL "a\nb") := by
  decide

/-- Fidelity of the replacement-template model: an unknown ASCII-letter
escape in the replacement raises `re.error` before any scanning. -/
theorem reSub_bad_escape_demo :
    reSub (compileRegex (patternOf (toL "apng"))) (toL "bad \\q") (toL "any doc")
      = Except.error PyErr.reError := by
  decide

/-- Fidelity of the replacement-template model: a group reference beyond
the pattern's zero capture groups raises `re.error`. -/
theorem reSub_group_ref_demo :
    reSub (compileRegex (patternOf (toL "apng"))) (toL "x\\1") (toL "any doc")
      = Except.error PyErr.reError := by
  decide

/-- Claim C2, counterexample: with filename `a.png`, the unescaped dot is
compiled as the regex wildcard, so the pattern also matches the
non-verbatim text `![aXpng](aXpng)` and the substitution rewrites it,
while literal replacement of the verbatim embed would leave the document
unchanged. -/
theorem image_sub_regex_cex :
    image_to_text_conversion florenceC2 pilOpenN [(toL "a.png", 1)] (toL "![aXpng](aXpng)")
      = Except.ok (toL "CAPTION")
    ∧ litSub (imagePat (toL "a.png")) (toL "CAPTION") (toL "![aXpng](aXpng)")
      = toL "![aXpng](aXpng)"
    ∧ toL "CAPTION" ≠ toL "![aXpng](aXpng)" := by
  decide
